import Mathlib

/-!
Shallow embedding of the IDEX synchronization service (`src/index.ts`) and
proofs about its sync-order pipeline: page-count assignment, login with
rate-limit retries, paginated fetching with its early-termination check
(shown unreachable due to a bigint/number type mismatch), duplicate-safe
persistence, the store retry wrapper, and order status transitions.

Conventions of the embedding:
* TypeScript numbers used as identifiers are modelled as `Int`
  (external ids / cabinet ids are numeric; `BigInt(id)` widening is identity
  on the numeric model).
* Timestamps that the code manipulates arithmetically (`approved_at`,
  `expired_at`) are modelled as milliseconds since epoch (`Int`); timestamp
  strings that the code copies verbatim stay `String`.
* Asynchronous HTTP / database effects are modelled by explicit oracles
  (functions from call index / page number to the response), and the store by
  an explicit list of rows threaded through the functions.
* `setTimeout` delays are recorded in traces rather than executed.
-/

namespace Idex

/-- Constant `BASE_DELAY` from `index.ts`. -/
def BASE_DELAY : Nat := 1000

/-- Constant `MAX_RETRIES` from `index.ts`. -/
def MAX_RETRIES : Nat := 5

/-- Constant `DEFAULT_PAGES_TO_FETCH` from `index.ts`. -/
def DEFAULT_PAGES_TO_FETCH : Nat := 10

/-- The `Transaction` interface from `index.ts`: one record of the remote
feed.  `id` and `payment_method_id` are numeric platform ids; `amount` and
`total` are opaque JSON payloads copied verbatim (modelled as `Int`);
`approved_at` / `expired_at` are optional timestamps in milliseconds; the
open index signature `[key: string]: any` is modelled by the explicit
`extraData` association list. -/
structure Transaction where
  id : Int
  payment_method_id : Int
  wallet : String
  amount : Int
  total : Int
  status : Int
  approved_at : Option Int
  expired_at : Option Int
  created_at : String
  updated_at : String
  extraData : List (String × String)
deriving Repr, DecidableEq

/-- A persisted `IdexTransaction` row (Prisma model in
`prisma/schema.prisma`), as created by `saveTransactions`. -/
structure IdexTransaction where
  externalId : Int
  paymentMethodId : Int
  wallet : String
  amount : Int
  total : Int
  status : Int
  approvedAt : Option Int
  expiredAt : Option Int
  createdAtExternal : String
  updatedAtExternal : String
  extraData : List (String × String)
  cabinetId : Int
deriving Repr, DecidableEq

/-- `determinePages(pages, cabinetIndex)` from `index.ts`: how many pages to
fetch for the cabinet at the given position.  Out-of-range list access cannot
occur (each branch indexes within bounds), so `getD` with a dummy default is
faithful. -/
def determinePages (pages : List Nat) (cabinetIndex : Nat) : Nat :=
  if pages.length = 0 then
    DEFAULT_PAGES_TO_FETCH
  else if pages.length = 1 then
    pages.getD 0 0
  else
    pages.getD (min cabinetIndex (pages.length - 1)) 0

/-- The row built by the `db.idexTransaction.create` call in
`saveTransactions`: field extraction, `BigInt` widening (identity on the
numeric model) and the fixed +3 hour shift of the optional timestamps
(`3 * 60 * 60 * 1000` milliseconds). -/
def createRow (t : Transaction) (cabinetId : Int) : IdexTransaction :=
  { externalId := t.id
    paymentMethodId := t.payment_method_id
    wallet := t.wallet
    amount := t.amount
    total := t.total
    status := t.status
    approvedAt := t.approved_at.map (fun ms => ms + 3 * 60 * 60 * 1000)
    expiredAt := t.expired_at.map (fun ms => ms + 3 * 60 * 60 * 1000)
    createdAtExternal := t.created_at
    updatedAtExternal := t.updated_at
    extraData := t.extraData
    cabinetId := cabinetId }

/-- `saveTransactions(transactions, cabinetId, db)` from `index.ts`.  It
bulk-reads the rows already stored for this cabinet, forms the set of
`externalId_cabinetId` keys, filters the batch to the records whose key is
absent, and creates one row per remaining record.  Returns the list of newly
created rows together with the updated store contents. -/
def saveTransactions (transactions : List Transaction) (cabinetId : Int)
    (db : List IdexTransaction) : List IdexTransaction × List IdexTransaction :=
  let existingTransactions := db.filter (fun r => r.cabinetId == cabinetId)
  let existingPairs := existingTransactions.map (fun r => (r.externalId, r.cabinetId))
  let newTransactions :=
    transactions.filter (fun t => ! existingPairs.contains (t.id, cabinetId))
  let savedTransactions := newTransactions.map (fun t => createRow t cabinetId)
  (savedTransactions, db ++ savedTransactions)

/-- The dedup key of C3: does the store already hold a row with this
`(externalId, cabinetId)` pair? -/
def pairPresent (db : List IdexTransaction) (externalId cabinetId : Int) : Bool :=
  db.any (fun r => r.externalId == externalId && r.cabinetId == cabinetId)

/-- A JavaScript runtime value, as far as the duplicate membership test of
`fetchTransactions` is concerned: the JSON-parsed transaction ids are
`number` (or `string`) values, while the Prisma client returns the `BigInt`
column `externalId` as JS `bigint` values. -/
inductive JsValue where
  | number (n : Int)
  | jsString (s : String)
  | bigint (n : Int)
deriving Repr, DecidableEq

/-- SameValueZero — the equality used by `Set.prototype.has`.  Values of
different runtime types are never equal; in particular `5n` (bigint) and
`5` (number) are distinct. -/
def sameValueZero : JsValue → JsValue → Bool
  | .number a, .number b => a == b
  | .jsString a, .jsString b => a == b
  | .bigint a, .bigint b => a == b
  | _, _ => false

/-- The duplicate query of `fetchTransactions`:
`findMany({where: {externalId: {in: externalIds}}, select: {externalId: true}})`.
It filters on `externalId` only — no cabinet condition.  Prisma coerces the
JSON-number ids for the column comparison (modelled as plain `Int`
comparison) and returns the selected `BigInt` column values. -/
def existingIdsFor (db : List IdexTransaction) (externalIds : List Int) : List Int :=
  (db.filter (fun r => externalIds.contains r.externalId)).map
    (fun r => r.externalId)

/-- The membership test `existingIds.has(t.id)` of `fetchTransactions`:
`existingIds` is a `Set` built from the Prisma `bigint` externalIds, while
`t.id` is the JSON-parsed number, and `Set.prototype.has` compares with
SameValueZero — so the `bigint`s are tested against a `number`.  (Unlike
`saveTransactions`, this path has no `.toString()` normalization.) -/
def knownId (db : List IdexTransaction) (externalIds : List Int) (id : Int) : Bool :=
  (existingIdsFor db externalIds).any
    (fun e => sameValueZero (.bigint e) (.number id))

/-- The `newTransactions` computation of the `fetchTransactions` loop body:
collect the page's ids, run the duplicate query, build the Set, and keep the
records whose id the `has` membership test does not find. -/
def newTransactionsOf (db : List IdexTransaction)
    (transactions : List Transaction) : List Transaction :=
  let externalIds := transactions.map (fun t => t.id)
  transactions.filter (fun t => ! knownId db externalIds t.id)

/-- Outcome of one `fetchTransactionsPage` call, as seen by the loop in
`fetchTransactions`: either the parsed page data, or a thrown error (rate
limit exhausted, bad status, unexpected shape) which the loop catches and
logs. -/
def PageOracle : Type := Nat → Except String (List Transaction)

/-- Trace of a `fetchTransactions` run: the accumulated unseen records
(`allTransactions`), the page numbers for which `fetchTransactionsPage` was
invoked, and the page numbers for which the store duplicate query ran. -/
structure FetchTrace where
  transactions : List Transaction
  requestedPages : List Nat
  queriedPages : List Nat
deriving Repr, DecidableEq

/-- Does the loop body of `fetchTransactions` hit its `break` at this page?
By the code's text this requires a non-empty page on which the membership
test finds every record; `stopsAt_eq_false` below shows the condition is in
fact unsatisfiable, because the `bigint`-vs-`number` membership test never
matches. -/
def stopsAt (pageData : PageOracle) (db : List IdexTransaction) (page : Nat) : Bool :=
  match pageData page with
  | .error _ => false
  | .ok transactions =>
    transactions.length > 0 && (newTransactionsOf db transactions).length = 0

/-- The `for (let page = 1; page <= pages; page++)` loop of
`fetchTransactions`, over an explicit list of remaining page numbers.
Mirrors the body: a failed page fetch is caught and skipped; an empty page
skips the duplicate query and continues; a non-empty page runs the
duplicate query and the `has` membership test (`newTransactionsOf`) and,
were that test ever to exclude every record, the loop would break. -/
def fetchGo (pageData : PageOracle) (db : List IdexTransaction) :
    List Nat → FetchTrace
  | [] => ⟨[], [], []⟩
  | page :: rest =>
    match pageData page with
    | .error _ =>
      let r := fetchGo pageData db rest
      ⟨r.transactions, page :: r.requestedPages, r.queriedPages⟩
    | .ok transactions =>
      if transactions.length > 0 then
        let newTransactions := newTransactionsOf db transactions
        if newTransactions.length = 0 then
          ⟨[], [page], [page]⟩
        else
          let r := fetchGo pageData db rest
          ⟨newTransactions ++ r.transactions, page :: r.requestedPages,
            page :: r.queriedPages⟩
      else
        let r := fetchGo pageData db rest
        ⟨r.transactions, page :: r.requestedPages, r.queriedPages⟩

/-- `fetchTransactions(cookies, pages, db)` from `index.ts`, abstracted over
the page oracle (the cookies only feed `fetchTransactionsPage`, which the
oracle stands for).  Pages are visited in order `1, 2, ..., pages`. -/
def fetchTransactions (pageData : PageOracle) (pages : Nat)
    (db : List IdexTransaction) : FetchTrace :=
  fetchGo pageData db (List.range' 1 pages)

/-- A session cookie produced by `login`.  The TypeScript `Cookie` record
also carries constant metadata (`domain`, `path`, flags) and a wall-clock
`expirationDate`; only the input-dependent fields are modelled. -/
structure Cookie where
  name : String
  value : String
deriving Repr, DecidableEq

/-- What one `axios.post` to the login endpoint produces, as the `login`
loop observes it: a response with a status, `set-cookie` headers and an
optional `retry-after` header; a thrown error carrying a 429 response (the
`error.response?.status === 429` branch of the catch); or any other thrown
error. -/
inductive LoginResponse where
  | resp (status : Nat) (setCookie : List String) (retryAfter : Option Nat)
  | thrown429 (retryAfter : Option Nat)
  | thrownOther (msg : String)
deriving Repr, DecidableEq

/-- Result of `login`: the cookie list, or a thrown `Error` message. -/
inductive LoginResult where
  | ok (cookies : List Cookie)
  | fail (msg : String)
deriving Repr, DecidableEq

/-- Trace of a `login` run: its result, the number of HTTP calls made, and
the waits (in ms) passed to `setTimeout` between attempts. -/
structure LoginTrace where
  result : LoginResult
  calls : Nat
  delays : List Nat
deriving Repr, DecidableEq

/-- Message of the error thrown when the cookie header list is empty
(translated from the Russian source text). -/
def noCookiesMsg : String := "No cookies received after authorization"

/-- Message of the error thrown when fewer than two sid/rsid cookies were
parsed (translated from the Russian source text). -/
def missingCookiesMsg : String := "Missing required cookies (sid and/or rsid)"

/-- Message of the error thrown when the retry budget for 429 responses is
exhausted (translated from the Russian source text). -/
def tooManyRequestsMsg : String :=
  "Maximum number of attempts exceeded. Last status: 429 Too Many Requests"

/-- Message of the error thrown on a non-200, non-429 login response
(translated from the Russian source text). -/
def authStatusFailMsg (status : Nat) : String :=
  "Authorization failed with status: " ++ toString status

/-- JS `String.prototype.split` with a one-character separator, modelled on
character lists (`''.split(c) = ['']`, separators delimit possibly empty
fields). -/
def splitChars (sep : Char) : List Char → List (List Char)
  | [] => [[]]
  | c :: t =>
    let rest := splitChars sep t
    if c = sep then
      [] :: rest
    else
      match rest with
      | [] => [[c]]
      | h :: t2 => (c :: h) :: t2

/-- JS `Array.prototype.join('=')` on character-list fragments. -/
def joinWithEq : List (List Char) → List Char
  | [] => []
  | [x] => x
  | x :: xs => x ++ '=' :: joinWithEq xs

/-- JS `String.prototype.includes` on character lists. -/
def strIncludes (hay sub : List Char) : Bool :=
  match hay with
  | [] => sub.isEmpty
  | _ :: t => sub.isPrefixOf hay || strIncludes t sub

/-- Cookie parsing inside the 200 branch of `login`:
`cookieStr.split(';')[0].split('=')`, name = first part, value = the rest
re-joined with `=`; only cookies named `sid` or `rsid` are kept. -/
def parsedSessionCookies (setCookie : List String) : List Cookie :=
  setCookie.filterMap (fun cookieStr =>
    let cookieParts := splitChars '=' ((splitChars ';' cookieStr.toList).headD [])
    let name := String.mk (cookieParts.headD [])
    let value := String.mk (joinWithEq cookieParts.tail)
    if name = "sid" || name = "rsid" then some ⟨name, value⟩ else none)

/-- The `response.status === 200` branch of `login`: empty `set-cookie`
throws, fewer than two parsed sid/rsid cookies throws, otherwise the parsed
cookies are returned. -/
def status200Result (setCookie : List String) : LoginResult :=
  if setCookie.length = 0 then
    .fail noCookiesMsg
  else
    let result := parsedSessionCookies setCookie
    if result.length < 2 then .fail missingCookiesMsg else .ok result

/-- The `while (true)` retry loop of `login`.  `remaining` is
`MAX_RETRIES - retryCount`: the code throws on a 429 exactly when
`retryCount >= MAX_RETRIES`, i.e. when `remaining = 0`.  On a retried 429
the wait is the `retry-after` header if present, else the current delay, and
the delay doubles.  Response-carried and exception-carried 429s take the
same path; any other thrown error is rethrown. -/
def loginGo (responses : Nat → LoginResponse) :
    Nat → Nat → Nat → LoginTrace
  | remaining, delay, callIdx =>
    match responses callIdx with
    | .resp status setCookie retryAfter =>
      if status = 200 then
        ⟨status200Result setCookie, 1, []⟩
      else if status = 429 then
        match remaining with
        | 0 => ⟨.fail tooManyRequestsMsg, 1, []⟩
        | remaining' + 1 =>
          let wait := retryAfter.getD delay
          let r := loginGo responses remaining' (delay * 2) (callIdx + 1)
          ⟨r.result, r.calls + 1, wait :: r.delays⟩
      else
        ⟨.fail (authStatusFailMsg status), 1, []⟩
    | .thrown429 retryAfter =>
      match remaining with
      | 0 => ⟨.fail tooManyRequestsMsg, 1, []⟩
      | remaining' + 1 =>
        let wait := retryAfter.getD delay
        let r := loginGo responses remaining' (delay * 2) (callIdx + 1)
        ⟨r.result, r.calls + 1, wait :: r.delays⟩
    | .thrownOther msg => ⟨.fail msg, 1, []⟩

/-- `login(credentials)` from `index.ts`, abstracted over the response
oracle (indexed by HTTP call number, starting at 0): starts with
`retryCount = 0` and `delay = BASE_DELAY`. -/
def login (responses : Nat → LoginResponse) : LoginTrace :=
  loginGo responses MAX_RETRIES BASE_DELAY 0

/-- Does this response take the 429 path of the loop (response-carried or
exception-carried)? -/
def is429 : LoginResponse → Bool
  | .resp status _ _ => status == 429
  | .thrown429 _ => true
  | .thrownOther _ => false

/-- A Prisma error as inspected by `withRetry`: an error `code` and a
`message`. -/
structure PrismaError where
  code : String
  message : String
deriving Repr, DecidableEq

/-- The apostrophe character, kept out of string literals. -/
def apos : String := String.mk [Char.ofNat 39]

/-- The substring that `withRetry` looks for in the error message
(`Can‥t reach database server`, with an apostrophe). -/
def cantReachMsg : String := "Can" ++ apos ++ "t reach database server"

/-- The condition `withRetry` recognizes as a retryable database-connection
failure: Prisma code `P1001` and a message containing `cantReachMsg`. -/
def isServerUnreachable (e : PrismaError) : Bool :=
  e.code == "P1001" && strIncludes e.message.toList cantReachMsg.toList

/-- Trace of a `withRetry` run: final result, number of attempts made, and
the waits (ms, exact rationals since the delay grows by `* 1.5`) slept
between attempts. -/
structure RetryTrace (α : Type) where
  result : Except PrismaError α
  attempts : Nat
  delays : List ℚ
deriving Repr

/-- `withRetry(fn, retries, delay)` from `index.ts`, abstracted over an
attempt-indexed outcome oracle: on a recognized connection failure with
retries left it sleeps `delay`, then recurses with `retries - 1` and
`delay * 1.5`; any other error propagates immediately. -/
def withRetryGo {α : Type} (fn : Nat → Except PrismaError α) :
    Nat → ℚ → Nat → RetryTrace α
  | retries, delay, attemptIdx =>
    match fn attemptIdx with
    | .ok a => ⟨.ok a, 1, []⟩
    | .error e =>
      match retries with
      | 0 => ⟨.error e, 1, []⟩
      | retries' + 1 =>
        if isServerUnreachable e then
          let r := withRetryGo fn retries' (delay * 1.5) (attemptIdx + 1)
          ⟨r.result, r.attempts + 1, delay :: r.delays⟩
        else
          ⟨.error e, 1, []⟩

/-- `withRetry` with its default arguments: `retries = 3`, `delay = 2000`. -/
def withRetry {α : Type} (fn : Nat → Except PrismaError α) : RetryTrace α :=
  withRetryGo fn 3 2000 0

/-- The `IdexSyncOrderStatus` enum from `prisma/schema.prisma`. -/
inductive IdexSyncOrderStatus where
  | PENDING
  | IN_PROGRESS
  | COMPLETED
  | FAILED
deriving Repr, DecidableEq

/-- An `IdexCabinet` row: credentialed account on the remote platform. -/
structure IdexCabinet where
  id : Int
  idexId : Int
  login : String
  password : String
deriving Repr, DecidableEq

/-- An `IdexSyncOrder` row, with the fields the processor reads. -/
structure IdexSyncOrder where
  id : Int
  cabinetId : Option Int
  pages : List Nat
  status : IdexSyncOrderStatus
deriving Repr, DecidableEq

/-- Message thrown when the order names a cabinet that does not exist
(translated from the Russian source text). -/
def cabinetNotFoundMsg (cabinetId : Int) : String :=
  "Cabinet with ID " ++ toString cabinetId ++ " not found"

/-- Message thrown when the order targets all cabinets but none exist
(translated from the Russian source text). -/
def noCabinetsMsg : String := "No cabinets found in the database"

/-- `determineCabinetsToSync(order)` from `index.ts`: a named cabinet id
resolves to that single cabinet (throwing when absent), otherwise all
cabinets (throwing when the table is empty). -/
def determineCabinetsToSync (cabinets : List IdexCabinet)
    (order : IdexSyncOrder) : Except String (List IdexCabinet) :=
  match order.cabinetId with
  | some cid =>
    match cabinets.find? (fun c => c.id == cid) with
    | some cabinet => .ok [cabinet]
    | none => .error (cabinetNotFoundMsg cid)
  | none =>
    if cabinets.length = 0 then .error noCabinetsMsg else .ok cabinets

/-- Per-cabinet sync oracle: stands for the `login` + `fetchTransactions` +
`saveTransactions` chain run for one cabinet with a given page budget.
`.ok (t, n)` delivers `(transactions.length, savedTransactions.length)`;
`.error msg` a thrown error (e.g. a 401 from login). -/
def CabinetSync : Type := IdexCabinet → Nat → Except String (Nat × Nat)

/-- One element of the `processedResults` array built by the order loop. -/
inductive ProcessedEntry where
  | success (cabinetId : Int) (transactions newTransactions : Nat)
  | failure (cabinetId : Int) (errorMsg : String)
deriving Repr, DecidableEq

/-- The body of the `for (const cabinet of cabinetsToSync)` loop: compute
the page budget from `cabinetsToSync.indexOf(cabinet)`, run the sync, and
turn a thrown error into a per-cabinet error entry. -/
def processCabinet (syncCabinet : CabinetSync) (order : IdexSyncOrder)
    (cabinetsToSync : List IdexCabinet) (cabinet : IdexCabinet) : ProcessedEntry :=
  let pagesToFetch := determinePages order.pages (cabinetsToSync.indexOf cabinet)
  match syncCabinet cabinet pagesToFetch with
  | .ok (transactions, newTransactions) =>
    .success cabinet.id transactions newTransactions
  | .error msg => .failure cabinet.id msg

/-- A status write performed by the processor through
`prisma.idexSyncOrder.update`. -/
inductive OrderEvent where
  | setInProgress (orderId : Int)
  | setCompleted (orderId : Int) (processed : List ProcessedEntry)
  | setFailed (orderId : Int) (errorMsg : String)
deriving Repr, DecidableEq

/-- The order a status write targets. -/
def eventOrderId : OrderEvent → Int
  | .setInProgress oid => oid
  | .setCompleted oid _ => oid
  | .setFailed oid _ => oid

/-- The status a write sets. -/
def eventStatus : OrderEvent → IdexSyncOrderStatus
  | .setInProgress _ => .IN_PROGRESS
  | .setCompleted _ _ => .COMPLETED
  | .setFailed _ _ => .FAILED

/-- Processing of one pending order in `processPendingIdexSyncOrders`: mark
it `IN_PROGRESS`; resolve the cabinets (a resolution error is caught by the
order-level `catch` and marks the order `FAILED`); otherwise sync every
cabinet, collecting per-cabinet entries, and mark the order `COMPLETED`
with the aggregated results. -/
def processOneOrder (cabinets : List IdexCabinet) (syncCabinet : CabinetSync)
    (order : IdexSyncOrder) : List OrderEvent :=
  match determineCabinetsToSync cabinets order with
  | .error e => [.setInProgress order.id, .setFailed order.id e]
  | .ok cabinetsToSync =>
    let processedResults :=
      cabinetsToSync.map (processCabinet syncCabinet order cabinetsToSync)
    [.setInProgress order.id, .setCompleted order.id processedResults]

/-- `processPendingIdexSyncOrders()` from `index.ts`: select the orders
whose status is `PENDING` and process them in sequence, emitting the status
writes of each. -/
def processPendingIdexSyncOrders (cabinets : List IdexCabinet)
    (orders : List IdexSyncOrder) (syncCabinet : CabinetSync) : List OrderEvent :=
  let pendingOrders := orders.filter (fun o => o.status == .PENDING)
  pendingOrders.flatMap (processOneOrder cabinets syncCabinet)

/-- The status writes that target a given order id. -/
def eventsFor (events : List OrderEvent) (orderId : Int) : List OrderEvent :=
  events.filter (fun e => eventOrderId e == orderId)

/-!
Concrete fixtures used to instantiate the theorems below on closed inputs.
-/

/-- A remote transaction with a given external id and neutral payload. -/
def sampleTxn (i : Int) : Transaction :=
  ⟨i, 0, "", 0, 0, 0, none, none, "", "", []⟩

/-- A persisted row with a given external id and cabinet id. -/
def sampleRow (i cabinetId : Int) : IdexTransaction :=
  createRow (sampleTxn i) cabinetId

/-- A first concrete cabinet. -/
def sampleCabinetA : IdexCabinet := ⟨1, 10, "loginA", "passA"⟩

/-- A second concrete cabinet. -/
def sampleCabinetB : IdexCabinet := ⟨2, 20, "loginB", "passB"⟩

/-- An order targeting all cabinets with a single page-count value. -/
def sampleOrder : IdexSyncOrder := ⟨100, none, [3], .PENDING⟩

/-- A cabinet-sync oracle where cabinet 1 hits an HTTP 401 on login and
every other cabinet syncs 7 transactions, 2 of them new. -/
def sampleSync : CabinetSync := fun c _ =>
  if c.id = 1 then .error "Request failed with status code 401" else .ok (7, 2)

/-- Page oracle where page 1 has one unseen record, page 2 is empty, and
every later page has one unseen record. -/
def sampleOracleEmptyPage2 : PageOracle := fun p =>
  if p = 1 then .ok [sampleTxn 1] else if p = 2 then .ok [] else .ok [sampleTxn 3]

/-- Page oracle where page 1 has a new record and every later page repeats
an already-persisted record. -/
def sampleOracleKnownPage2 : PageOracle := fun p =>
  if p = 1 then .ok [sampleTxn 1] else .ok [sampleTxn 5]

/-- Page oracle where every page repeats an already-persisted record. -/
def sampleOracleAllKnown : PageOracle := fun _ => .ok [sampleTxn 5]

/-- An order already in a terminal state. -/
def sampleOrderDone : IdexSyncOrder := ⟨101, none, [], .COMPLETED⟩

/-!
## Theorems
-/

/-- Claim C5: for every page-count list of length `L` and every cabinet
index `i ≥ 0`, the assigned page count for cabinet index `i` equals
`list[min(i, L-1)]` when `L ≥ 1`, and equals the default 10 when the list
is empty. -/
theorem determinePages_assignment (pages : List Nat) (i : Nat) :
    (pages = [] → determinePages pages i = 10) ∧
    (∀ h : 0 < pages.length,
      determinePages pages i =
        pages.get ⟨min i (pages.length - 1),
          lt_of_le_of_lt (Nat.min_le_right _ _) (by omega)⟩) := by
  constructor
  · intro h
    subst h
    rfl
  · intro h
    unfold determinePages
    rw [if_neg (by omega)]
    have hlt : min i (pages.length - 1) < pages.length :=
      lt_of_le_of_lt (Nat.min_le_right _ _) (by omega)
    by_cases h1 : pages.length = 1
    · rw [if_pos h1]
      have h0 : min i (pages.length - 1) = 0 := by omega
      simp only [List.get_eq_getElem, List.getD_eq_getElem?_getD,
        List.getElem?_eq_getElem (h0 ▸ hlt), List.getElem?_eq_getElem hlt, h0]
      rfl
    · rw [if_neg h1]
      simp only [List.get_eq_getElem, List.getD_eq_getElem?_getD,
        List.getElem?_eq_getElem hlt]
      rfl

/-- Witness for C5: instantiated on `[4, 5]` at index 7 and on `[]`. -/
theorem determinePages_assignment_witness :
    determinePages [] 3 = 10 ∧ determinePages [4, 5] 7 = 5 :=
  ⟨(determinePages_assignment [] 3).1 rfl,
    by
      have h := (determinePages_assignment [4, 5] 7).2 (by decide)
      simpa using h⟩

lemma withRetryGo_error_zero {α : Type} (fn : Nat → Except PrismaError α)
    (delay : ℚ) (idx : Nat) (e : PrismaError) (h : fn idx = .error e) :
    withRetryGo fn 0 delay idx = ⟨.error e, 1, []⟩ := by
  conv_lhs => rw [withRetryGo]
  rw [h]

lemma withRetryGo_error_retry {α : Type} (fn : Nat → Except PrismaError α)
    {retries : Nat} (hr : retries ≠ 0) (delay : ℚ) (idx : Nat) (e : PrismaError)
    (h : fn idx = .error e) (hrec : isServerUnreachable e = true) :
    withRetryGo fn retries delay idx =
      ⟨(withRetryGo fn (retries - 1) (delay * 1.5) (idx + 1)).result,
       (withRetryGo fn (retries - 1) (delay * 1.5) (idx + 1)).attempts + 1,
       delay :: (withRetryGo fn (retries - 1) (delay * 1.5) (idx + 1)).delays⟩ := by
  cases retries with
  | zero => exact absurd rfl hr
  | succ n =>
    conv_lhs => rw [withRetryGo]
    rw [h]
    simp only [hrec, if_true, Nat.succ_sub_one]

lemma withRetryGo_error_stop {α : Type} (fn : Nat → Except PrismaError α)
    (retries : Nat) (delay : ℚ) (idx : Nat) (e : PrismaError)
    (h : fn idx = .error e) (hrec : isServerUnreachable e = false) :
    withRetryGo fn retries delay idx = ⟨.error e, 1, []⟩ := by
  cases retries with
  | zero => exact withRetryGo_error_zero fn delay idx e h
  | succ n =>
    conv_lhs => rw [withRetryGo]
    rw [h]
    simp only [hrec, if_false, Bool.false_eq_true, ite_false]

/-- Claim C8: `withRetry` retries only the recognized server-unreachable
condition (Prisma code `P1001` with the reach-failure message), with
backoff delays 2000ms, then `× 1.5`, for at most 3 retries (4 attempts)
before surfacing the error; every other failure propagates immediately with
no retry. -/
theorem withRetry_behaviour {α : Type} (fn : Nat → Except PrismaError α) :
    (∀ e, fn 0 = .error e → isServerUnreachable e = false →
      withRetry fn = ⟨.error e, 1, []⟩) ∧
    (∀ e0 e1 e2 e3,
      fn 0 = .error e0 → fn 1 = .error e1 → fn 2 = .error e2 →
      fn 3 = .error e3 →
      isServerUnreachable e0 = true → isServerUnreachable e1 = true →
      isServerUnreachable e2 = true →
      withRetry fn = ⟨.error e3, 4, [2000, 3000, 4500]⟩) ∧
    (∀ retries delay attemptIdx,
      (withRetryGo fn retries delay attemptIdx).attempts ≤ retries + 1) := by
  refine ⟨?_, ?_, ?_⟩
  · intro e h0 hrec
    exact withRetryGo_error_stop fn 3 2000 0 e h0 hrec
  · intro e0 e1 e2 e3 h0 h1 h2 h3 r0 r1 r2
    rw [withRetry, withRetryGo_error_retry fn (by omega) 2000 0 e0 h0 r0]
    norm_num
    rw [withRetryGo_error_retry fn (by omega) 3000 1 e1 h1 r1]
    norm_num
    rw [withRetryGo_error_retry fn (by omega) 4500 2 e2 h2 r2]
    norm_num
    rw [withRetryGo_error_zero fn 6750 3 e3 h3]
    simp
  · intro retries delay attemptIdx
    induction retries generalizing delay attemptIdx with
    | zero =>
      cases hfn : fn attemptIdx with
      | ok a => rw [show withRetryGo fn 0 delay attemptIdx = ⟨.ok a, 1, []⟩ by
          conv_lhs => rw [withRetryGo]
          rw [hfn]]
      | error e => rw [withRetryGo_error_zero fn delay attemptIdx e hfn]
    | succ n ih =>
      cases hfn : fn attemptIdx with
      | ok a =>
        rw [show withRetryGo fn (n + 1) delay attemptIdx = ⟨.ok a, 1, []⟩ by
          conv_lhs => rw [withRetryGo]
          rw [hfn]]
        simp
      | error e =>
        by_cases hrec : isServerUnreachable e
        · rw [withRetryGo_error_retry fn (by omega) delay attemptIdx e hfn hrec]
          have := ih (delay * 1.5) (attemptIdx + 1)
          simp only [Nat.succ_sub_one]
          omega
        · rw [withRetryGo_error_stop fn (n + 1) delay attemptIdx e hfn
            (by simpa using hrec)]
          simp

/-- Witness for C8: a non-retryable error surfaces untouched after one
attempt; a persistent connection failure surfaces after 4 attempts with
delays 2000, 3000, 4500. -/
theorem withRetry_behaviour_witness :
    withRetry (fun _ => (.error ⟨"P2002", "unique constraint"⟩ :
        Except PrismaError Nat)) =
      ⟨.error ⟨"P2002", "unique constraint"⟩, 1, []⟩ ∧
    withRetry (fun _ => (.error ⟨"P1001", cantReachMsg⟩ :
        Except PrismaError Nat)) =
      ⟨.error ⟨"P1001", cantReachMsg⟩, 4, [2000, 3000, 4500]⟩ :=
  ⟨(withRetry_behaviour _).1 _ rfl (by decide),
    (withRetry_behaviour _).2.1 _ _ _ _ rfl rfl rfl rfl (by decide) (by decide)
      (by decide)⟩

lemma contains_filter_pairs (db : List IdexTransaction) (cab i : Int) :
    (((db.filter (fun r => r.cabinetId == cab)).map
        (fun r => (r.externalId, r.cabinetId))).contains (i, cab)) =
      pairPresent db i cab := by
  rw [Bool.eq_iff_iff]
  simp only [List.contains_iff_exists_mem_beq, pairPresent, List.any_eq_true,
    List.mem_map, List.mem_filter, beq_iff_eq, Bool.and_eq_true]
  constructor
  · rintro ⟨⟨e2, c2⟩, ⟨r, ⟨hr, hcab⟩, heq⟩, hbeq⟩
    refine ⟨r, hr, ?_, ?_⟩
    · cases heq
      cases hbeq
      rfl
    · exact hcab
  · rintro ⟨r, hr, hext, hcab⟩
    exact ⟨(r.externalId, r.cabinetId), ⟨r, ⟨hr, hcab⟩, rfl⟩, by rw [hext, hcab]⟩

/-- Claim C3: `saveTransactions` creates exactly those records whose
`(externalId, cabinetId)` pair is not already present in the store, returns
exactly the sequence of newly created records (in input order), and
persisting the same batch again against the resulting store creates
nothing. -/
theorem saveTransactions_dedup (transactions : List Transaction) (cabinetId : Int)
    (db : List IdexTransaction) :
    (saveTransactions transactions cabinetId db).1 =
      (transactions.filter (fun t => ! pairPresent db t.id cabinetId)).map
        (fun t => createRow t cabinetId) ∧
    (saveTransactions transactions cabinetId
        (saveTransactions transactions cabinetId db).2).1 = [] := by
  have hpred : ∀ (d : List IdexTransaction) (t : Transaction),
      (!((d.filter (fun r => r.cabinetId == cabinetId)).map
          (fun r => (r.externalId, r.cabinetId))).contains (t.id, cabinetId)) =
        (! pairPresent d t.id cabinetId) := by
    intro d t
    rw [contains_filter_pairs]
  have h1 : (saveTransactions transactions cabinetId db).1 =
      (transactions.filter (fun t => ! pairPresent db t.id cabinetId)).map
        (fun t => createRow t cabinetId) := by
    simp only [saveTransactions]
    rw [List.filter_congr (fun t _ => hpred db t)]
  refine ⟨h1, ?_⟩
  have h2 : (saveTransactions transactions cabinetId db).2 =
      db ++ (saveTransactions transactions cabinetId db).1 := rfl
  rw [h2]
  set s := (saveTransactions transactions cabinetId db).1 with hs
  have hnil : transactions.filter
      (fun t => ! pairPresent (db ++ s) t.id cabinetId) = [] := by
    rw [List.filter_eq_nil_iff]
    intro t ht
    simp only [Bool.not_eq_true', Bool.not_eq_true]
    cases hdb : pairPresent db t.id cabinetId with
    | true =>
      simp only [pairPresent, List.any_append] at hdb ⊢
      simp [hdb]
    | false =>
      have hmem : createRow t cabinetId ∈ s := by
        rw [h1]
        exact List.mem_map_of_mem _ (List.mem_filter.mpr ⟨ht, by rw [hdb]; rfl⟩)
      simp only [pairPresent, List.any_append]
      have hany : s.any
          (fun r => r.externalId == t.id && r.cabinetId == cabinetId) = true :=
        List.any_eq_true.mpr ⟨createRow t cabinetId, hmem, by simp [createRow]⟩
      simp [hany]
  simp only [saveTransactions]
  rw [List.filter_congr (fun t _ => hpred _ t), hnil]
  rfl

lemma fetchGo_cons_error (pd : PageOracle) (db : List IdexTransaction)
    (p : Nat) (rest : List Nat) (msg : String) (h : pd p = .error msg) :
    fetchGo pd db (p :: rest) =
      ⟨(fetchGo pd db rest).transactions,
       p :: (fetchGo pd db rest).requestedPages,
       (fetchGo pd db rest).queriedPages⟩ := by
  conv_lhs => rw [fetchGo]
  rw [h]

lemma fetchGo_cons_empty (pd : PageOracle) (db : List IdexTransaction)
    (p : Nat) (rest : List Nat) (h : pd p = .ok []) :
    fetchGo pd db (p :: rest) =
      ⟨(fetchGo pd db rest).transactions,
       p :: (fetchGo pd db rest).requestedPages,
       (fetchGo pd db rest).queriedPages⟩ := by
  conv_lhs => rw [fetchGo]
  rw [h]
  simp

lemma fetchGo_cons_stop (pd : PageOracle) (db : List IdexTransaction)
    (p : Nat) (rest : List Nat) (ts : List Transaction) (h : pd p = .ok ts)
    (hlen : 0 < ts.length)
    (hnew : (newTransactionsOf db ts).length = 0) :
    fetchGo pd db (p :: rest) = ⟨[], [p], [p]⟩ := by
  conv_lhs => rw [fetchGo]
  rw [h]
  simp only [gt_iff_lt, hlen, if_true, hnew, if_pos rfl]

lemma fetchGo_cons_new (pd : PageOracle) (db : List IdexTransaction)
    (p : Nat) (rest : List Nat) (ts : List Transaction) (h : pd p = .ok ts)
    (hlen : 0 < ts.length)
    (hnew : (newTransactionsOf db ts).length ≠ 0) :
    fetchGo pd db (p :: rest) =
      ⟨newTransactionsOf db ts ++ (fetchGo pd db rest).transactions,
       p :: (fetchGo pd db rest).requestedPages,
       p :: (fetchGo pd db rest).queriedPages⟩ := by
  conv_lhs => rw [fetchGo]
  rw [h]
  simp only [gt_iff_lt, hlen, if_true, hnew, if_neg hnew]
  simp

lemma fetchGo_requested_sub (pd : PageOracle) (db : List IdexTransaction) :
    ∀ L m, m ∈ (fetchGo pd db L).requestedPages → m ∈ L := by
  intro L
  induction L with
  | nil => intro m h; simp [fetchGo] at h
  | cons p rest ih =>
    intro m h
    cases hpd : pd p with
    | error msg =>
      rw [fetchGo_cons_error pd db p rest msg hpd] at h
      rcases List.mem_cons.mp h with rfl | h2
      · exact List.mem_cons_self _ _
      · exact List.mem_cons_of_mem _ (ih m h2)
    | ok ts =>
      rcases Nat.eq_zero_or_pos ts.length with hlen | hlen
      · have hts : ts = [] := List.length_eq_zero.mp hlen
        subst hts
        rw [fetchGo_cons_empty pd db p rest hpd] at h
        rcases List.mem_cons.mp h with rfl | h2
        · exact List.mem_cons_self _ _
        · exact List.mem_cons_of_mem _ (ih m h2)
      · by_cases hnew : (newTransactionsOf db ts).length = 0
        · rw [fetchGo_cons_stop pd db p rest ts hpd hlen hnew] at h
          simp only [List.mem_singleton] at h
          subst h
          exact List.mem_cons_self _ _
        · rw [fetchGo_cons_new pd db p rest ts hpd hlen hnew] at h
          rcases List.mem_cons.mp h with rfl | h2
          · exact List.mem_cons_self _ _
          · exact List.mem_cons_of_mem _ (ih m h2)

lemma fetchGo_queried_nonempty (pd : PageOracle) (db : List IdexTransaction) :
    ∀ L m, m ∈ (fetchGo pd db L).queriedPages →
      ∃ ts, pd m = .ok ts ∧ 0 < ts.length := by
  intro L
  induction L with
  | nil => intro m h; simp [fetchGo] at h
  | cons p rest ih =>
    intro m h
    cases hpd : pd p with
    | error msg =>
      rw [fetchGo_cons_error pd db p rest msg hpd] at h
      exact ih m h
    | ok ts =>
      rcases Nat.eq_zero_or_pos ts.length with hlen | hlen
      · have hts : ts = [] := List.length_eq_zero.mp hlen
        subst hts
        rw [fetchGo_cons_empty pd db p rest hpd] at h
        exact ih m h
      · by_cases hnew : (newTransactionsOf db ts).length = 0
        · rw [fetchGo_cons_stop pd db p rest ts hpd hlen hnew] at h
          simp only [List.mem_singleton] at h
          subst h
          exact ⟨ts, hpd, hlen⟩
        · rw [fetchGo_cons_new pd db p rest ts hpd hlen hnew] at h
          rcases List.mem_cons.mp h with rfl | h2
          · exact ⟨ts, hpd, hlen⟩
          · exact ih m h2

lemma fetchGo_append (pd : PageOracle) (db : List IdexTransaction) :
    ∀ L1 L2, fetchGo pd db (L1 ++ L2) =
      if L1.any (stopsAt pd db) then fetchGo pd db L1
      else
        ⟨(fetchGo pd db L1).transactions ++ (fetchGo pd db L2).transactions,
         (fetchGo pd db L1).requestedPages ++ (fetchGo pd db L2).requestedPages,
         (fetchGo pd db L1).queriedPages ++ (fetchGo pd db L2).queriedPages⟩ := by
  intro L1
  induction L1 with
  | nil =>
    intro L2
    simp [fetchGo]
  | cons p rest ih =>
    intro L2
    cases hpd : pd p with
    | error msg =>
      have hstop : stopsAt pd db p = false := by simp [stopsAt, hpd]
      rw [List.cons_append, fetchGo_cons_error pd db p (rest ++ L2) msg hpd, ih L2,
        fetchGo_cons_error pd db p rest msg hpd]
      simp only [List.any_cons, hstop, Bool.false_or]
      by_cases hany : rest.any (stopsAt pd db) = true
      · simp [hany, fetchGo_cons_error pd db p rest msg hpd]
      · simp only [Bool.not_eq_true] at hany
        simp [hany, fetchGo_cons_error pd db p rest msg hpd]
    | ok ts =>
      rcases Nat.eq_zero_or_pos ts.length with hlen | hlen
      · have hts : ts = [] := List.length_eq_zero.mp hlen
        subst hts
        have hstop : stopsAt pd db p = false := by simp [stopsAt, hpd]
        rw [List.cons_append, fetchGo_cons_empty pd db p (rest ++ L2) hpd, ih L2,
          fetchGo_cons_empty pd db p rest hpd]
        simp only [List.any_cons, hstop, Bool.false_or]
        by_cases hany : rest.any (stopsAt pd db) = true
        · simp [hany, fetchGo_cons_empty pd db p rest hpd]
        · simp only [Bool.not_eq_true] at hany
          simp [hany, fetchGo_cons_empty pd db p rest hpd]
      · by_cases hnew : (newTransactionsOf db ts).length = 0
        · have hstop : stopsAt pd db p = true := by
            simp [stopsAt, hpd, hlen, hnew]
          rw [List.cons_append, fetchGo_cons_stop pd db p (rest ++ L2) ts hpd hlen hnew]
          simp only [List.any_cons, hstop, Bool.true_or, if_true]
          rw [fetchGo_cons_stop pd db p rest ts hpd hlen hnew]
        · have hstop : stopsAt pd db p = false := by
            simp [stopsAt, hpd, hnew]
          rw [List.cons_append, fetchGo_cons_new pd db p (rest ++ L2) ts hpd hlen hnew,
            ih L2, fetchGo_cons_new pd db p rest ts hpd hlen hnew]
          simp only [List.any_cons, hstop, Bool.false_or]
          by_cases hany : rest.any (stopsAt pd db) = true
          · simp [hany, fetchGo_cons_new pd db p rest ts hpd hlen hnew]
          · simp only [Bool.not_eq_true] at hany
            simp [hany, fetchGo_cons_new pd db p rest ts hpd hlen hnew]

lemma fetchGo_head_requested (pd : PageOracle) (db : List IdexTransaction)
    (p : Nat) (rest : List Nat) :
    p ∈ (fetchGo pd db (p :: rest)).requestedPages := by
  cases hpd : pd p with
  | error msg =>
    rw [fetchGo_cons_error pd db p rest msg hpd]
    exact List.mem_cons_self _ _
  | ok ts =>
    rcases Nat.eq_zero_or_pos ts.length with hlen | hlen
    · have hts : ts = [] := List.length_eq_zero.mp hlen
      subst hts
      rw [fetchGo_cons_empty pd db p rest hpd]
      exact List.mem_cons_self _ _
    · by_cases hnew : (newTransactionsOf db ts).length = 0
      · rw [fetchGo_cons_stop pd db p rest ts hpd hlen hnew]
        exact List.mem_cons_self _ _
      · rw [fetchGo_cons_new pd db p rest ts hpd hlen hnew]
        exact List.mem_cons_self _ _

/-- The membership test of the fetch path never matches: the Set holds
`bigint` externalIds and the probe `t.id` is a `number`, and SameValueZero
distinguishes the types. -/
lemma knownId_eq_false (db : List IdexTransaction) (externalIds : List Int)
    (id : Int) : knownId db externalIds id = false := by
  simp only [knownId, List.any_eq_false]
  intro e he
  simp [sameValueZero]

/-- Consequently the loop body's `newTransactions` is always the whole
page: the fetch-side dedup filter excludes nothing. -/
lemma newTransactionsOf_eq_self (db : List IdexTransaction)
    (transactions : List Transaction) :
    newTransactionsOf db transactions = transactions := by
  unfold newTransactionsOf
  apply List.filter_eq_self.mpr
  intro t ht
  rw [knownId_eq_false]
  rfl

/-- The break condition of the fetch loop is unsatisfiable: a non-empty
page always yields `newTransactions` equal to the whole page. -/
lemma stopsAt_eq_false (pd : PageOracle) (db : List IdexTransaction) (p : Nat) :
    stopsAt pd db p = false := by
  unfold stopsAt
  cases hpd : pd p with
  | error msg => rfl
  | ok ts =>
    simp only [newTransactionsOf_eq_self]
    rcases Nat.eq_zero_or_pos ts.length with h | h
    · simp [h]
    · have h2 : ts.length ≠ 0 := by omega
      simp [h, h2]

/-- The loop never breaks, so every page in the list is requested,
independently of the store contents. -/
lemma fetchGo_requestedPages_all (pd : PageOracle) (db : List IdexTransaction) :
    ∀ L, (fetchGo pd db L).requestedPages = L := by
  intro L
  induction L with
  | nil => rfl
  | cons p rest ih =>
    cases hpd : pd p with
    | error msg => rw [fetchGo_cons_error pd db p rest msg hpd, ih]
    | ok ts =>
      rcases Nat.eq_zero_or_pos ts.length with hlen | hlen
      · have hts : ts = [] := List.length_eq_zero.mp hlen
        subst hts
        rw [fetchGo_cons_empty pd db p rest hpd, ih]
      · have hne : (newTransactionsOf db ts).length ≠ 0 := by
          rw [newTransactionsOf_eq_self]
          omega
        rw [fetchGo_cons_new pd db p rest ts hpd hlen hne, ih]

/-- `fetchTransactions` always requests all `N` pages: the early-
termination break is dead code. -/
lemma fetchTransactions_requestedPages_all (pd : PageOracle)
    (db : List IdexTransaction) (N : Nat) :
    (fetchTransactions pd N db).requestedPages = List.range' 1 N :=
  fetchGo_requestedPages_all pd db _

/-- Claim C2 (code bug, evaluated at the failing input): the store already
holds the record with externalId 5 (for cabinet 77) and page 2 returns
exactly that record, yet page 3 is still requested.  `existingIds` is a Set
of Prisma `bigint`s (5n) while `t.id` is the JSON number 5, and
`Set.prototype.has` uses SameValueZero, so no record ever counts as already
known and the `newTransactions.length === 0` break is unreachable —
`saveTransactions` works around exactly this pitfall with `.toString()`
keys, which this path lacks. -/
theorem fetch_all_known_page_requests_page3 :
    (fetchTransactions sampleOracleKnownPage2 3 [sampleRow 5 77]).requestedPages
      = [1, 2, 3] ∧
    sampleOracleKnownPage2 2 = .ok [sampleTxn 5] ∧
    (sampleRow 5 77).externalId = (sampleTxn 5).id :=
  ⟨by decide, rfl, by decide⟩

/-- Claim C9 (code bug, evaluated at the failing input): the duplicate
query does select by `externalId` only, with no cabinet condition — it
returns the row persisted for cabinet 77 — but its result is dead: the
persisted record is not excluded from the returned sequence (it is returned
again by every page) and never counts toward the zero-unseen
early-termination condition (both pages of a 2-page fetch are requested),
because the `bigint`-vs-`number` membership test never matches. -/
theorem fetch_persisted_id_not_excluded :
    ((fetchTransactions sampleOracleAllKnown 2 [sampleRow 5 77]).transactions.map
        (fun t => t.id)) = [5, 5] ∧
    (fetchTransactions sampleOracleAllKnown 2 [sampleRow 5 77]).requestedPages
      = [1, 2] ∧
    existingIdsFor [sampleRow 5 77] [5] = [5] := by
  decide

/-- Claim C10: a page with zero records does not stop the fetch: no store
duplicate query is made for it, and the loop continues to the next page
index. -/
theorem fetch_empty_page_continues (pd : PageOracle) (db : List IdexTransaction)
    (N k : Nat) (hempty : pd k = .ok []) :
    k ∉ (fetchTransactions pd N db).queriedPages ∧
    (1 ≤ k → k < N →
      k ∈ (fetchTransactions pd N db).requestedPages →
      (k + 1) ∈ (fetchTransactions pd N db).requestedPages) := by
  constructor
  · intro hq
    obtain ⟨ts, hts, hlen⟩ := fetchGo_queried_nonempty pd db _ k hq
    rw [hempty] at hts
    injection hts with h
    subst h
    simp at hlen
  · intro hk1 hkN hreq
    have hsplit : List.range' 1 N =
        List.range' 1 (k - 1) ++ List.range' (1 + (k - 1)) (N - (k - 1)) := by
      conv_lhs => rw [show N = (N - (k - 1)) + (k - 1) from by omega]
      exact (List.range'_append_1 1 (k - 1) (N - (k - 1))).symm
    rw [fetchTransactions, hsplit, fetchGo_append] at hreq ⊢
    by_cases hany : (List.range' 1 (k - 1)).any (stopsAt pd db) = true
    case pos =>
      rw [if_pos hany] at hreq
      have := fetchGo_requested_sub pd db _ k hreq
      rw [List.mem_range'] at this
      omega
    case neg =>
      rw [if_neg hany] at hreq ⊢
      simp only [List.mem_append] at hreq ⊢
      have hnotin1 : k ∉ (fetchGo pd db (List.range' 1 (k - 1))).requestedPages := by
        intro hin
        have := fetchGo_requested_sub pd db _ k hin
        rw [List.mem_range'] at this
        omega
      have hk2 : k ∈ (fetchGo pd db (List.range' (1 + (k - 1)) (N - (k - 1)))).requestedPages := by
        rcases hreq with h | h
        · exact absurd h hnotin1
        · exact h
      right
      have hrw : List.range' (1 + (k - 1)) (N - (k - 1)) =
          k :: List.range' (k + 1) (N - (k - 1) - 1) := by
        rw [show N - (k - 1) = (N - (k - 1) - 1) + 1 from by omega, List.range'_succ]
        congr 1
        · omega
        · congr 1
          omega
      rw [hrw]
      rw [fetchGo_cons_empty pd db k _ hempty]
      apply List.mem_cons_of_mem
      have hrw2 : List.range' (k + 1) (N - (k - 1) - 1) =
          (k + 1) :: List.range' (k + 2) (N - (k - 1) - 2) := by
        rw [show N - (k - 1) - 1 = (N - (k - 1) - 2) + 1 from by omega, List.range'_succ]
      rw [hrw2]
      exact fetchGo_head_requested pd db (k + 1) _

/-- Witness for C10: with page 2 empty in a 3-page fetch, page 2 is never
store-queried and page 3 is still requested. -/
theorem fetch_empty_page_continues_witness :
    2 ∉ (fetchTransactions sampleOracleEmptyPage2 3 []).queriedPages ∧
    3 ∈ (fetchTransactions sampleOracleEmptyPage2 3 []).requestedPages := by
  have h := fetch_empty_page_continues sampleOracleEmptyPage2 [] 3 2 rfl
  exact ⟨h.1, h.2 (by decide) (by decide) (by decide)⟩

lemma loginGo_200 (responses : Nat → LoginResponse) (remaining delay callIdx : Nat)
    (sc : List String) (ra : Option Nat)
    (h : responses callIdx = .resp 200 sc ra) :
    loginGo responses remaining delay callIdx = ⟨status200Result sc, 1, []⟩ := by
  conv_lhs => rw [loginGo]
  rw [h]
  simp

lemma loginGo_other (responses : Nat → LoginResponse) (remaining delay callIdx : Nat)
    (status : Nat) (sc : List String) (ra : Option Nat)
    (h : responses callIdx = .resp status sc ra) (h200 : status ≠ 200)
    (h429 : status ≠ 429) :
    loginGo responses remaining delay callIdx =
      ⟨.fail (authStatusFailMsg status), 1, []⟩ := by
  conv_lhs => rw [loginGo]
  rw [h]
  simp [h200, h429]

lemma loginGo_thrownOther (responses : Nat → LoginResponse)
    (remaining delay callIdx : Nat) (msg : String)
    (h : responses callIdx = .thrownOther msg) :
    loginGo responses remaining delay callIdx = ⟨.fail msg, 1, []⟩ := by
  conv_lhs => rw [loginGo]
  rw [h]

lemma loginGo_429_zero (responses : Nat → LoginResponse) (delay callIdx : Nat)
    (sc : List String) (ra : Option Nat)
    (h : responses callIdx = .resp 429 sc ra) :
    loginGo responses 0 delay callIdx = ⟨.fail tooManyRequestsMsg, 1, []⟩ := by
  conv_lhs => rw [loginGo]
  rw [h]
  simp

lemma loginGo_thrown429_zero (responses : Nat → LoginResponse) (delay callIdx : Nat)
    (ra : Option Nat) (h : responses callIdx = .thrown429 ra) :
    loginGo responses 0 delay callIdx = ⟨.fail tooManyRequestsMsg, 1, []⟩ := by
  conv_lhs => rw [loginGo]
  rw [h]

lemma loginGo_429_step (responses : Nat → LoginResponse) {remaining : Nat}
    (hr : remaining ≠ 0) (delay callIdx : Nat) (sc : List String) (ra : Option Nat)
    (h : responses callIdx = .resp 429 sc ra) :
    loginGo responses remaining delay callIdx =
      ⟨(loginGo responses (remaining - 1) (delay * 2) (callIdx + 1)).result,
       (loginGo responses (remaining - 1) (delay * 2) (callIdx + 1)).calls + 1,
       ra.getD delay ::
         (loginGo responses (remaining - 1) (delay * 2) (callIdx + 1)).delays⟩ := by
  cases remaining with
  | zero => exact absurd rfl hr
  | succ n =>
    conv_lhs => rw [loginGo]
    rw [h]
    simp only [Nat.succ_sub_one]
    simp

lemma loginGo_thrown429_step (responses : Nat → LoginResponse) {remaining : Nat}
    (hr : remaining ≠ 0) (delay callIdx : Nat) (ra : Option Nat)
    (h : responses callIdx = .thrown429 ra) :
    loginGo responses remaining delay callIdx =
      ⟨(loginGo responses (remaining - 1) (delay * 2) (callIdx + 1)).result,
       (loginGo responses (remaining - 1) (delay * 2) (callIdx + 1)).calls + 1,
       ra.getD delay ::
         (loginGo responses (remaining - 1) (delay * 2) (callIdx + 1)).delays⟩ := by
  cases remaining with
  | zero => exact absurd rfl hr
  | succ n =>
    conv_lhs => rw [loginGo]
    rw [h]
    simp only [Nat.succ_sub_one]

lemma is429_cases {r : LoginResponse} (h : is429 r = true) :
    (∃ sc ra, r = .resp 429 sc ra) ∨ (∃ ra, r = .thrown429 ra) := by
  cases r with
  | resp status sc ra =>
    left
    simp only [is429, beq_iff_eq] at h
    exact ⟨sc, ra, by rw [h]⟩
  | thrown429 ra => right; exact ⟨ra, rfl⟩
  | thrownOther msg => simp [is429] at h

lemma loginGo_all429 (responses : Nat → LoginResponse) :
    ∀ remaining delay callIdx,
      (∀ j, j ≤ remaining → is429 (responses (callIdx + j)) = true) →
      (loginGo responses remaining delay callIdx).result = .fail tooManyRequestsMsg ∧
      (loginGo responses remaining delay callIdx).calls = remaining + 1 := by
  intro remaining
  induction remaining with
  | zero =>
    intro delay callIdx h
    have h0 := h 0 le_rfl
    rw [Nat.add_zero] at h0
    rcases is429_cases h0 with ⟨sc, ra, hr⟩ | ⟨ra, hr⟩
    · rw [loginGo_429_zero responses delay callIdx sc ra hr]
      exact ⟨rfl, rfl⟩
    · rw [loginGo_thrown429_zero responses delay callIdx ra hr]
      exact ⟨rfl, rfl⟩
  | succ n ih =>
    intro delay callIdx h
    have h0 := h 0 (Nat.zero_le _)
    rw [Nat.add_zero] at h0
    have hrest : ∀ j, j ≤ n → is429 (responses (callIdx + 1 + j)) = true := by
      intro j hj
      have := h (j + 1) (by omega)
      rwa [show callIdx + (j + 1) = callIdx + 1 + j from by omega] at this
    have hih := ih (delay * 2) (callIdx + 1) hrest
    rcases is429_cases h0 with ⟨sc, ra, hr⟩ | ⟨ra, hr⟩
    · rw [loginGo_429_step responses (Nat.succ_ne_zero n) delay callIdx sc ra hr]
      simp only [Nat.succ_sub_one]
      exact ⟨hih.1, by rw [hih.2]⟩
    · rw [loginGo_thrown429_step responses (Nat.succ_ne_zero n) delay callIdx ra hr]
      simp only [Nat.succ_sub_one]
      exact ⟨hih.1, by rw [hih.2]⟩

/-- Counterexample to C1 as stated: on an endpoint answering 429 forever —
in particular on the first 5 consecutive calls — `login` makes a 6th HTTP
call (6 calls in total) before failing; the 6th call IS made. -/
theorem login_sixth_call_made_cx :
    (login (fun _ => .resp 429 [] none)).calls = 6 ∧
    (login (fun _ => .resp 429 [] none)).result = .fail tooManyRequestsMsg := by
  decide

/-- Claim C1 (amended): when the first 6 responses are all 429 (response-
or exception-carried), `login` makes exactly 6 HTTP calls — the initial
attempt plus `MAX_RETRIES = 5` retries — and then fails permanently with the
rate-limit error; it is on the 6th consecutive 429, not the 5th, that the
operation fails, and no 7th call is made. -/
theorem login_rate_limit_cap (responses : Nat → LoginResponse)
    (h : ∀ j, j ≤ 5 → is429 (responses j) = true) :
    (login responses).result = .fail tooManyRequestsMsg ∧
    (login responses).calls = 6 := by
  have hc := loginGo_all429 responses 5 BASE_DELAY 0
    (by intro j hj; simpa using h j hj)
  simpa [login, MAX_RETRIES] using hc

/-- Witness for the amended C1, on exception-carried 429s with a
`retry-after` header. -/
theorem login_rate_limit_cap_witness :
    (login (fun _ => .thrown429 (some 500))).result = .fail tooManyRequestsMsg ∧
    (login (fun _ => .thrown429 (some 500))).calls = 6 :=
  login_rate_limit_cap _ (fun _ _ => rfl)

/-- Counterexample to C6 as stated: a 200 response whose two `set-cookie`
headers are both named `sid` parses to two cookies, so `login` succeeds and
returns them although the required name `rsid` is absent — the code checks
the count of sid/rsid cookies (with multiplicity), not that both names are
present. -/
theorem login_two_sid_cookies_cx :
    (login (fun _ => .resp 200 ["sid=a", "sid=b"] none)).result =
      .ok [⟨"sid", "a"⟩, ⟨"sid", "b"⟩] ∧
    "rsid" ∉ (parsedSessionCookies ["sid=a", "sid=b"]).map Cookie.name := by
  decide

/-- Claim C6 (amended): for a 200 login response, `login` fails exactly
when the response carries no `set-cookie` headers or fewer than two parsed
cookies named `sid` or `rsid` (counted with multiplicity); otherwise it
returns the list of all parsed cookies named `sid` or `rsid`, which need not
contain both names. -/
theorem login_status200_cookie_check (responses : Nat → LoginResponse)
    (sc : List String) (ra : Option Nat) (h : responses 0 = .resp 200 sc ra) :
    ((∃ msg, (login responses).result = .fail msg) ↔
      sc = [] ∨ (parsedSessionCookies sc).length < 2) ∧
    (sc ≠ [] → 2 ≤ (parsedSessionCookies sc).length →
      (login responses).result = .ok (parsedSessionCookies sc)) := by
  have hl : login responses = ⟨status200Result sc, 1, []⟩ :=
    loginGo_200 responses MAX_RETRIES BASE_DELAY 0 sc ra h
  rw [hl]
  unfold status200Result
  constructor
  · by_cases h0 : sc.length = 0
    · rw [if_pos h0]
      simp [List.length_eq_zero.mp h0]
    · rw [if_neg h0]
      by_cases hlen : (parsedSessionCookies sc).length < 2
      · rw [if_pos hlen]
        simp [hlen]
      · rw [if_neg hlen]
        simp only [List.length_eq_zero] at h0
        simp [h0, hlen]
  · intro hne hlen
    rw [if_neg (by simpa [List.length_eq_zero] using hne), if_neg (by omega)]

/-- Witness for the amended C6: a well-formed sid/rsid pair logs in and an
empty cookie header fails. -/
theorem login_status200_cookie_check_witness :
    (login (fun _ => .resp 200 ["sid=a; Path=/", "rsid=b"] none)).result =
      .ok (parsedSessionCookies ["sid=a; Path=/", "rsid=b"]) ∧
    (∃ msg, (login (fun _ => .resp 200 ([] : List String) none)).result =
      .fail msg) := by
  constructor
  · exact (login_status200_cookie_check _ _ _ rfl).2 (by decide) (by decide)
  · exact (login_status200_cookie_check _ _ _ rfl).1.mpr (Or.inl rfl)

lemma processOneOrder_orderId (cabinets : List IdexCabinet)
    (syncCabinet : CabinetSync) (o : IdexSyncOrder) :
    ∀ e ∈ processOneOrder cabinets syncCabinet o, eventOrderId e = o.id := by
  intro e he
  unfold processOneOrder at he
  cases hres : determineCabinetsToSync cabinets o with
  | error msg =>
    rw [hres] at he
    rcases List.mem_cons.mp he with rfl | he2
    · rfl
    · rcases List.mem_cons.mp he2 with rfl | he3
      · rfl
      · simp at he3
  | ok cabs =>
    rw [hres] at he
    rcases List.mem_cons.mp he with rfl | he2
    · rfl
    · rcases List.mem_cons.mp he2 with rfl | he3
      · rfl
      · simp at he3

lemma eventsFor_processPending (cabinets : List IdexCabinet)
    (orders : List IdexSyncOrder) (syncCabinet : CabinetSync) (oid : Int) :
    eventsFor (processPendingIdexSyncOrders cabinets orders syncCabinet) oid =
      (orders.filter (fun o2 => o2.status == .PENDING)).flatMap
        (fun o2 => if o2.id = oid
          then processOneOrder cabinets syncCabinet o2 else []) := by
  unfold processPendingIdexSyncOrders eventsFor
  simp only [List.filter_flatMap]
  apply List.flatMap_congr
  intro o2 ho2
  by_cases hid : o2.id = oid
  · rw [if_pos hid]
    apply List.filter_eq_self.mpr
    intro e he
    rw [processOneOrder_orderId cabinets syncCabinet o2 e he, hid]
    simp
  · rw [if_neg hid]
    apply List.filter_eq_nil_iff.mpr
    intro e he
    rw [processOneOrder_orderId cabinets syncCabinet o2 e he]
    simpa using hid

/-- Claim C4: the processor picks up exactly the `PENDING` orders (orders
in any other status receive no writes at all), and every picked-up order is
first set `IN_PROGRESS` and then set exactly once to `COMPLETED` or
`FAILED` — the transition discipline PENDING → IN_PROGRESS → terminal,
where terminal is COMPLETED or FAILED.  Order ids are assumed
distinct, which the store's primary key guarantees. -/
theorem processPending_status_transitions (cabinets : List IdexCabinet)
    (orders : List IdexSyncOrder) (syncCabinet : CabinetSync)
    (huniq : (orders.map IdexSyncOrder.id).Nodup) (o : IdexSyncOrder)
    (ho : o ∈ orders) :
    (o.status ≠ .PENDING →
      eventsFor (processPendingIdexSyncOrders cabinets orders syncCabinet) o.id
        = []) ∧
    (o.status = .PENDING →
      ((eventsFor (processPendingIdexSyncOrders cabinets orders syncCabinet)
          o.id).map eventStatus = [.IN_PROGRESS, .COMPLETED] ∨
       (eventsFor (processPendingIdexSyncOrders cabinets orders syncCabinet)
          o.id).map eventStatus = [.IN_PROGRESS, .FAILED])) := by
  have hinj := List.inj_on_of_nodup_map huniq
  rw [eventsFor_processPending cabinets orders syncCabinet o.id]
  constructor
  · intro hnp
    apply List.flatMap_eq_nil_iff.mpr
    intro o2 ho2
    have ho2o : o2 ∈ orders := List.mem_of_mem_filter ho2
    have ho2p : o2.status = .PENDING := by
      have := List.of_mem_filter ho2
      simpa using this
    rw [if_neg ?_]
    intro hid
    have heq : o2 = o := hinj ho2o ho hid
    rw [heq] at ho2p
    exact hnp ho2p
  · intro hp
    have hop : o ∈ orders.filter (fun o2 => o2.status == .PENDING) :=
      List.mem_filter.mpr ⟨ho, by simp [hp]⟩
    obtain ⟨s, t, hst⟩ := List.append_of_mem hop
    have hnd : ((orders.filter (fun o2 => o2.status == .PENDING)).map
        IdexSyncOrder.id).Nodup :=
      ((List.filter_sublist orders).map IdexSyncOrder.id).nodup huniq
    rw [hst] at hnd
    rw [List.map_append, List.map_cons] at hnd
    rw [List.nodup_middle] at hnd
    have hnotin : o.id ∉ s.map IdexSyncOrder.id ++ t.map IdexSyncOrder.id :=
      (List.nodup_cons.mp hnd).1
    have hsnil : s.flatMap (fun o2 => if o2.id = o.id
        then processOneOrder cabinets syncCabinet o2 else []) = [] := by
      apply List.flatMap_eq_nil_iff.mpr
      intro o2 ho2
      rw [if_neg ?_]
      intro hid
      exact hnotin (List.mem_append_left _
        (hid ▸ List.mem_map_of_mem IdexSyncOrder.id ho2))
    have htnil : t.flatMap (fun o2 => if o2.id = o.id
        then processOneOrder cabinets syncCabinet o2 else []) = [] := by
      apply List.flatMap_eq_nil_iff.mpr
      intro o2 ho2
      rw [if_neg ?_]
      intro hid
      exact hnotin (List.mem_append_right _
        (hid ▸ List.mem_map_of_mem IdexSyncOrder.id ho2))
    rw [hst, List.flatMap_append, List.flatMap_cons, hsnil, htnil, if_pos rfl,
      List.nil_append, List.append_nil]
    unfold processOneOrder
    cases hres : determineCabinetsToSync cabinets o with
    | error msg =>
      right
      rfl
    | ok cabs =>
      left
      rfl

/-- Witness for C4: of two orders, the `PENDING` one transitions
IN_PROGRESS then COMPLETED/FAILED, the `COMPLETED` one is untouched. -/
theorem processPending_status_transitions_witness :
    ((eventsFor (processPendingIdexSyncOrders [sampleCabinetA, sampleCabinetB]
        [sampleOrder, sampleOrderDone] sampleSync) sampleOrder.id).map
          eventStatus = [.IN_PROGRESS, .COMPLETED] ∨
     (eventsFor (processPendingIdexSyncOrders [sampleCabinetA, sampleCabinetB]
        [sampleOrder, sampleOrderDone] sampleSync) sampleOrder.id).map
          eventStatus = [.IN_PROGRESS, .FAILED]) ∧
    eventsFor (processPendingIdexSyncOrders [sampleCabinetA, sampleCabinetB]
        [sampleOrder, sampleOrderDone] sampleSync) sampleOrderDone.id = [] :=
  ⟨(processPending_status_transitions [sampleCabinetA, sampleCabinetB]
      [sampleOrder, sampleOrderDone] sampleSync (by decide) sampleOrder
      (by decide)).2 rfl,
   (processPending_status_transitions [sampleCabinetA, sampleCabinetB]
      [sampleOrder, sampleOrderDone] sampleSync (by decide) sampleOrderDone
      (by decide)).1 (by decide)⟩

/-- Claim C7: when cabinet resolution succeeds, an order always ends in
`setCompleted` — never `setFailed` — regardless of per-cabinet errors, with
one result entry per cabinet; entry i is an error record when syncing
cabinet i threw (e.g. a 401 on login) and a success record otherwise, each
cabinet's entry depending only on its own outcome. -/
theorem processOrder_cabinet_fault_isolation (cabinets : List IdexCabinet)
    (syncCabinet : CabinetSync) (order : IdexSyncOrder)
    (cabs : List IdexCabinet) (hnd : cabs.Nodup)
    (hres : determineCabinetsToSync cabinets order = .ok cabs) :
    processOneOrder cabinets syncCabinet order =
      [.setInProgress order.id,
       .setCompleted order.id
         (cabs.map (processCabinet syncCabinet order cabs))] ∧
    (cabs.map (processCabinet syncCabinet order cabs)).length = cabs.length ∧
    (∀ i, (hi : i < cabs.length) →
      (cabs.map (processCabinet syncCabinet order cabs)).getD i (.failure 0 "")
        = match syncCabinet (cabs.get ⟨i, hi⟩)
            (determinePages order.pages i) with
          | .ok (t, n) => .success (cabs.get ⟨i, hi⟩).id t n
          | .error msg => .failure (cabs.get ⟨i, hi⟩).id msg) := by
  refine ⟨?_, List.length_map _ _, ?_⟩
  · unfold processOneOrder
    rw [hres]
  · intro i hi
    have hgd : (cabs.map (processCabinet syncCabinet order cabs)).getD i
        (.failure 0 "") = processCabinet syncCabinet order cabs
          (cabs.get ⟨i, hi⟩) := by
      rw [List.getD_eq_getElem?_getD, List.getElem?_map,
        List.getElem?_eq_getElem hi]
      rfl
    rw [hgd]
    unfold processCabinet
    have hidx : cabs.indexOf (cabs.get ⟨i, hi⟩) = i := by
      simpa using List.indexOf_getElem hnd i hi
    rw [hidx]

/-- Witness for C7: two cabinets, the first failing with an HTTP 401; its
entry is the error record, the second cabinet's success entry is intact, and
the order completes. -/
theorem processOrder_cabinet_fault_isolation_witness :
    processOneOrder [sampleCabinetA, sampleCabinetB] sampleSync sampleOrder =
      [.setInProgress 100,
       .setCompleted 100
         [.failure 1 "Request failed with status code 401", .success 2 7 2]] := by
  have h := processOrder_cabinet_fault_isolation [sampleCabinetA, sampleCabinetB]
    sampleSync sampleOrder [sampleCabinetA, sampleCabinetB] (by decide) rfl
  rw [h.1]
  decide

end Idex
